import Mathlib

/-!
# Immutable tag rule DAO (`src/pkg/immutabletag/dao/immutable.go`)

A shallow embedding of the seven operations of `immutableRuleDao`.  Every
operation of the source is one call of the store driver (`dao.GetOrmer()`)
followed by a translation of the driver's error.  The embedding has two layers:

* the DAO operations, written over an arbitrary driver `Ormer σ` (explicit
  state passing: the driver's state goes in and comes out);
* `tableOrmer`, a driver over an in-memory table, used for the statements that
  speak about stored rows.
-/

namespace Harbor.ImmutableTag

/-! ## Data model -/

/-- Modelled from the spec: the record type `model.ImmutableRule` (declared in
`src/pkg/immutabletag/dao/model`, which is not among the sources).  Spec §3: an
integer `ID` assigned by the store, an integer `ProjectID`, the string
`TagFilter` and the boolean `Disabled`.  Go's `int64` is `Int`: the DAO does no
arithmetic on identifiers. -/
structure ImmutableRule where
  ID : Int
  ProjectID : Int
  TagFilter : String
  Disabled : Bool
deriving DecidableEq, Repr

/-- The non-key columns of the rule table.  The source names them by string:
`o.Update(ir, "TagFilter")`, `o.Update(ir, "Disabled")`, `Filter("ProjectID", _)`. -/
inductive Column where
  | ProjectID
  | TagFilter
  | Disabled
deriving DecidableEq, Repr

/-- One `Filter(name, value)` step of a query set, as the source writes them:
`Filter("ProjectID", projectID)` and `Filter("Disabled", false)`. -/
inductive Cond where
  | ProjectID (v : Int)
  | Disabled (b : Bool)
deriving DecidableEq, Repr

/-! ## Errors -/

/-- The error values the store driver raises (spec §6): the distinguished
"no rows" condition (`orm.ErrNoRows`), the distinguished "duplicate record"
condition, and every other failure. -/
inductive StoreErr where
  | ErrNoRows
  | dupRec (detail : String)
  | other (detail : String)
deriving DecidableEq, Repr

/-- The codes of `lib/error` the DAO uses. -/
inductive ErrCode where
  | NotFoundCode
  | ConflictCode
deriving DecidableEq, Repr

/-- A Go `error` as the DAO returns it: the driver's error itself (`raw`), a
`lib/error` value carrying a code, an optional explicit message and the wrapped
cause (`coded`), or a `fmt.Errorf("... %w", err)` value (`wrapped`). -/
inductive Error where
  | raw (e : StoreErr)
  | coded (code : ErrCode) (message : Option String) (cause : StoreErr)
  | wrapped (context : String) (cause : StoreErr)
deriving DecidableEq, Repr

/-- The code of an error, when it carries one. -/
def Error.Code : Error → Option ErrCode
  | .coded c _ _ => some c
  | _ => none

/-- The store error an error wraps (or is). -/
def Error.Cause : Error → StoreErr
  | .raw e => e
  | .coded _ _ e => e
  | .wrapped _ e => e

/-- Modelled from the spec: `dao.IsDupRecErr` (package `common/dao`, not among
the sources): true exactly on the store's duplicate-record condition. -/
def IsDupRecErr : StoreErr → Bool
  | .dupRec _ => true
  | _ => false

/-- The test `errors.Is(err, orm.ErrNoRows)` on an error raised by the driver. -/
def isErrNoRows : StoreErr → Bool
  | .ErrNoRows => true
  | _ => false

/-- Modelled from the spec: `internal_errors.ConflictError` (package `lib/error`,
not among the sources): a `Conflict` error that wraps the original store error.
Its default message text is not fixed by the spec and is left out. -/
def ConflictError (err : StoreErr) : Error :=
  .coded .ConflictCode none err

/-- Modelled from the spec: `internal_errors.NotFoundError` (package `lib/error`,
not among the sources): a `NotFound` error wrapping the store error. -/
def NotFoundError (err : StoreErr) : Error :=
  .coded .NotFoundCode none err

/-- Modelled from the spec: `internal_errors.New(err).WithCode(code).WithMessage(msg)`
(package `lib/error`, not among the sources): an error with that code, carrying
the human-readable message and the original error as cause. -/
def NewWithCodeMessage (err : StoreErr) (code : ErrCode) (msg : String) : Error :=
  .coded code (some msg) err

/-- The text `fmt.Sprintf("the immutable rule %d is not found.", id)`. -/
def notFoundMessage (id : Int) : String :=
  "the immutable rule " ++ toString id ++ " is not found."

/-! ## The store driver -/

/-- What `o.Update` and `o.Delete` hand back: the `int64`, the error, and the
driver's state after the call. -/
structure ExecResult (σ : Type) where
  num : Int
  err : Option StoreErr
  store : σ

/-- What `o.Insert(ir)` hands back; `md` is the struct behind the pointer after
the call. -/
structure InsertResult (σ : Type) where
  id : Int
  err : Option StoreErr
  md : ImmutableRule
  store : σ

/-- What `o.Read(ir)` hands back; `md` is the struct behind the pointer after
the call. -/
structure ReadResult where
  err : Option StoreErr
  md : ImmutableRule

/-- What `qs.All(&r)` hands back; `rows` is the slice behind the pointer after
the call. -/
structure AllResult where
  num : Int
  err : Option StoreErr
  rows : List ImmutableRule

/-- The primitives of the store driver the DAO calls (`dao.GetOrmer()` yields a
beego `orm.Ormer`; the library is outside the repository).  `σ` is the state of
the store.  `All conds` stands for `QueryTable(&ImmutableRule{})` followed by
the `Filter` steps `conds` and `All`.  `Insert` and `Read` write to the struct
they are given, so their results carry it; `Update` leaves it as it is, and the
DAO never looks at the struct it gave to `Delete`. -/
structure Ormer (σ : Type) where
  Insert : σ → ImmutableRule → InsertResult σ
  Update : σ → ImmutableRule → List Column → ExecResult σ
  Read : σ → ImmutableRule → ReadResult
  Delete : σ → ImmutableRule → ExecResult σ
  All : σ → List Cond → List ImmutableRule → AllResult

/-! ## The DAO operations (translated from `immutable.go`) -/

/-- Result of an operation that takes the rule by pointer: the `(int64, error)`
pair, the caller's struct after the call, and the store after the call. -/
structure RuleCall (σ : Type) where
  val : Int
  err : Option Error
  ir : ImmutableRule
  store : σ

/-- Result of an operation returning `(int64, error)`. -/
structure IntCall (σ : Type) where
  val : Int
  err : Option Error
  store : σ

/-- The all-zero struct `model.ImmutableRule{}`. -/
def zeroRule : ImmutableRule :=
  { ID := 0, ProjectID := 0, TagFilter := "", Disabled := false }

/-- The method `CreateImmutableRule` (immutable.go, lines 32-43). -/
def CreateImmutableRule {σ : Type} (o : Ormer σ) (s : σ) (ir : ImmutableRule) : RuleCall σ :=
  let ir := { ir with Disabled := false }
  let r := o.Insert s ir
  match r.err with
  | some err =>
    if IsDupRecErr err then
      { val := r.id, err := some (ConflictError err), ir := r.md, store := r.store }
    else
      { val := r.id, err := some (Error.raw err), ir := r.md, store := r.store }
  | none => { val := r.id, err := none, ir := r.md, store := r.store }

/-- The method `UpdateImmutableRule` (immutable.go, lines 46-57). -/
def UpdateImmutableRule {σ : Type} (o : Ormer σ) (s : σ) (projectID : Int)
    (ir : ImmutableRule) : RuleCall σ :=
  let ir := { ir with ProjectID := projectID }
  let r := o.Update s ir [Column.TagFilter]
  match r.err with
  | some err =>
    if isErrNoRows err then
      { val := r.num, err := some (NotFoundError err), ir := ir, store := r.store }
    else
      { val := r.num, err := some (Error.raw err), ir := ir, store := r.store }
  | none => { val := r.num, err := none, ir := ir, store := r.store }

/-- The method `ToggleImmutableRule` (immutable.go, lines 60-71). -/
def ToggleImmutableRule {σ : Type} (o : Ormer σ) (s : σ) (id : Int) (status : Bool) :
    IntCall σ :=
  let ir := { zeroRule with ID := id, Disabled := status }
  let r := o.Update s ir [Column.Disabled]
  match r.err with
  | some err =>
    if isErrNoRows err then
      { val := r.num, err := some (NotFoundError err), store := r.store }
    else
      { val := r.num, err := some (Error.raw err), store := r.store }
  | none => { val := r.num, err := none, store := r.store }

/-- The method `GetImmutableRule` (immutable.go, lines 74-86): the rule (`none`
is Go's `nil`) and the error. -/
def GetImmutableRule {σ : Type} (o : Ormer σ) (s : σ) (id : Int) :
    Option ImmutableRule × Option Error :=
  let ir := { zeroRule with ID := id }
  let r := o.Read s ir
  match r.err with
  | some err =>
    if isErrNoRows err then
      (none, some (NewWithCodeMessage err ErrCode.NotFoundCode (notFoundMessage id)))
    else
      (none, some (Error.raw err))
  | none => (some r.md, none)

/-- The method `QueryImmutableRuleByProjectID` (immutable.go, lines 89-98).  A Go
slice is a list; the `nil` slice and the empty slice are both `[]`. -/
def QueryImmutableRuleByProjectID {σ : Type} (o : Ormer σ) (s : σ) (projectID : Int) :
    List ImmutableRule × Option Error :=
  let r := o.All s [Cond.ProjectID projectID] []
  match r.err with
  | some err =>
    ([], some (Error.wrapped
      ("failed to get immutable tag rule by projectID " ++ toString projectID ++ ", error: ")
      err))
  | none => (r.rows, none)

/-- The method `QueryEnabledImmutableRuleByProjectID` (immutable.go, lines 101-110). -/
def QueryEnabledImmutableRuleByProjectID {σ : Type} (o : Ormer σ) (s : σ) (projectID : Int) :
    List ImmutableRule × Option Error :=
  let r := o.All s [Cond.ProjectID projectID, Cond.Disabled false] []
  match r.err with
  | some err =>
    ([], some (Error.wrapped
      ("failed to get enabled immutable tag rule for by projectID " ++ toString projectID
        ++ ", error: ")
      err))
  | none => (r.rows, none)

/-- The method `DeleteImmutableRule` (immutable.go, lines 113-117): the driver's
pair is returned as it is. -/
def DeleteImmutableRule {σ : Type} (o : Ormer σ) (s : σ) (id : Int) : IntCall σ :=
  let ir := { zeroRule with ID := id }
  let r := o.Delete s ir
  { val := r.num, err := r.err.map Error.raw, store := r.store }

/-! ## A driver over an in-memory table

The driver itself (the beego ORM, `github.com/astaxie/beego/orm`) is a library
outside the repository.  The table driver below gives each primitive the effect
on the rule table that spec §4.1 describes for the operation built on it; where
the spec is silent or leaves the matter to the driver (the first result of
`Update`, and what `Update` reports when no row matches, spec §9) it follows the
documented contract of the library the source names.
-/

/-- The rule table behind the driver: the rows in store-native order, the next
value of the identifier sequence, whether the store enforces a unique index on
the project/filter combination (spec §4.1), and an injected failure: when
`fault` is `some d` every driver call fails with `StoreErr.other d` and changes
nothing (a lost connection, say). -/
structure Store where
  rows : List ImmutableRule
  nextID : Int
  uniqueIndex : Bool
  fault : Option String
deriving DecidableEq, Repr

/-- The project/filter combination of a row. -/
def keyOf (r : ImmutableRule) : Int × String :=
  (r.ProjectID, r.TagFilter)

/-- The row `r` after an update from the struct `md` restricted to `cols`: the
primary key is never written; a column is written when it is listed, or when no
column is listed at all (then every column is). -/
def setCols (cols : List Column) (md r : ImmutableRule) : ImmutableRule :=
  { ID := r.ID
    ProjectID :=
      if cols.isEmpty || cols.contains Column.ProjectID then md.ProjectID else r.ProjectID
    TagFilter :=
      if cols.isEmpty || cols.contains Column.TagFilter then md.TagFilter else r.TagFilter
    Disabled :=
      if cols.isEmpty || cols.contains Column.Disabled then md.Disabled else r.Disabled }

/-- Whether a filter step accepts a row. -/
def Cond.holds (r : ImmutableRule) : Cond → Bool
  | .ProjectID v => r.ProjectID == v
  | .Disabled b => r.Disabled == b

/-- Modelled from the spec: the driver's `Insert` (not among the sources).  Spec
§4.1: "Persists a new row; store assigns `ID`", and the store "signals a
uniqueness violation" by the duplicate-record condition.  The caller's `ID` is
not written; the row is appended under the next identifier, which is returned
and written back into the struct.  A clash with the primary key or with the
unique index is the duplicate-record condition. -/
def tableInsert (s : Store) (md : ImmutableRule) : InsertResult Store :=
  match s.fault with
  | some d => { id := 0, err := some (StoreErr.other d), md := md, store := s }
  | none =>
    if s.rows.any (fun r => r.ID == s.nextID) then
      { id := 0, err := some (StoreErr.dupRec "primary key"), md := md, store := s }
    else if s.uniqueIndex && s.rows.any (fun r => keyOf r == keyOf md) then
      { id := 0, err := some (StoreErr.dupRec "project, filter"), md := md, store := s }
    else
      let row := { md with ID := s.nextID }
      { id := s.nextID, err := none, md := row,
        store := { s with rows := s.rows ++ [row], nextID := s.nextID + 1 } }

/-- Whether writing `cols` of `md` into the rows with `md`'s key would clash
with the unique index. -/
def updateClashes (s : Store) (md : ImmutableRule) (cols : List Column) : Bool :=
  s.uniqueIndex
    && (cols.isEmpty || cols.contains Column.ProjectID || cols.contains Column.TagFilter)
    && s.rows.any (fun m => m.ID == md.ID
        && s.rows.any (fun r => r.ID != md.ID && keyOf r == keyOf (setCols cols md m)))

/-- The driver's `Update(md, cols...)` (not among the sources):
`UPDATE ... SET cols WHERE id = md.ID`.  Only the listed columns of the row
identified by `md.ID` are written (spec §4.1: "Updates only the `TagFilter`
field of the existing row identified by `rule.ID`; all other fields are left
untouched").  The first result is the number of rows affected, and an update
that matches no row is not an error: it reports `(0, nil)`.  In these two
points the model follows the contract of the ORM named by the source
(`github.com/astaxie/beego/orm`), whose `Update` returns the affected-row count
and never raises `ErrNoRows`; spec §9 leaves this behaviour to the driver. -/
def tableUpdate (s : Store) (md : ImmutableRule) (cols : List Column) : ExecResult Store :=
  match s.fault with
  | some d => { num := 0, err := some (StoreErr.other d), store := s }
  | none =>
    if updateClashes s md cols then
      { num := 0, err := some (StoreErr.dupRec "project, filter"), store := s }
    else
      { num := ((s.rows.filter (fun r => r.ID == md.ID)).length : Nat)
        err := none
        store := { s with rows := s.rows.map (fun r => if r.ID == md.ID then setCols cols md r else r) } }

/-- Modelled from the spec: the driver's `Read` (not among the sources).  Spec
§4.1: "Fetches the full row by identifier"; spec §6: the driver raises the
distinguished "no rows" condition when there is none. -/
def tableRead (s : Store) (md : ImmutableRule) : ReadResult :=
  match s.fault with
  | some d => { err := some (StoreErr.other d), md := md }
  | none =>
    match s.rows.find? (fun r => r.ID == md.ID) with
    | some r => { err := none, md := r }
    | none => { err := some StoreErr.ErrNoRows, md := md }

/-- Modelled from the spec: the driver's `Delete` (not among the sources).  Spec
§4.1: "Physically removes the row matching `id`. Returns the count of rows
affected (0 if none matched)". -/
def tableDelete (s : Store) (md : ImmutableRule) : ExecResult Store :=
  match s.fault with
  | some d => { num := 0, err := some (StoreErr.other d), store := s }
  | none =>
    { num := ((s.rows.filter (fun r => r.ID == md.ID)).length : Nat)
      err := none
      store := { s with rows := s.rows.filter (fun r => r.ID != md.ID) } }

/-- Modelled from the spec: the driver's query (not among the sources).  Spec
§4.1: "Returns all rules for the project, in store-native order", "additionally
filtered to rows where `Disabled = false`"; "empty sequence (not a failure) when
none exist".  The rows that pass every filter step, in store order, replace the
container.  (A row limit of the driver on `All` is not modelled.) -/
def tableAll (s : Store) (conds : List Cond) (container : List ImmutableRule) : AllResult :=
  match s.fault with
  | some d => { num := 0, err := some (StoreErr.other d), rows := container }
  | none =>
    let found := s.rows.filter (fun r => conds.all (fun c => c.holds r))
    { num := (found.length : Nat), err := none, rows := found }

/-- The table driver. -/
def tableOrmer : Ormer Store :=
  { Insert := tableInsert
    Update := tableUpdate
    Read := tableRead
    Delete := tableDelete
    All := tableAll }

/-- The primary key is unique in the table. -/
def Store.pkUnique (s : Store) : Prop :=
  (s.rows.map (fun r => r.ID)).Nodup

/-- A driver that only records the arguments of its `Update` calls (most recent
first) and reports `res`; used to observe what the DAO hands to the store. -/
def spyOrmer (res : Int × Option StoreErr) : Ormer (List (ImmutableRule × List Column)) :=
  { Insert := fun s md => { id := 0, err := none, md := md, store := s }
    Update := fun s md cols => { num := res.1, err := res.2, store := (md, cols) :: s }
    Read := fun _ md => { err := none, md := md }
    Delete := fun s _ => { num := 0, err := none, store := s }
    All := fun _ _ c => { num := 0, err := none, rows := c } }

instance (s : Store) : Decidable s.pkUnique := by
  unfold Store.pkUnique
  infer_instance

/-! ## Concrete stores used as inputs -/

/-- An empty table with the unique index in force. -/
def emptyStore : Store :=
  { rows := [], nextID := 1, uniqueIndex := true, fault := none }

/-- A table with two rules of project 7 (one of them disabled) and one rule of
project 3. -/
def sampleStore : Store :=
  { rows := [ { ID := 5, ProjectID := 7, TagFilter := "a", Disabled := false },
              { ID := 6, ProjectID := 7, TagFilter := "b", Disabled := true },
              { ID := 8, ProjectID := 3, TagFilter := "c", Disabled := false } ],
    nextID := 9, uniqueIndex := true, fault := none }

/-- The same table behind a driver that has lost its connection. -/
def downStore : Store :=
  { sampleStore with fault := some "connection refused" }

/-- The rule of the spec's example: the caller asks for `Disabled = true`. -/
def releaseRule : ImmutableRule :=
  { ID := 0, ProjectID := 7, TagFilter := "release-*", Disabled := true }

/-- A rule whose `ProjectID` and `Disabled` differ from the stored row 5. -/
def editRule : ImmutableRule :=
  { ID := 5, ProjectID := 1, TagFilter := "v*", Disabled := true }

/-- A rule whose `ID` matches no row of `sampleStore`. -/
def strayRule : ImmutableRule :=
  { ID := 42, ProjectID := 7, TagFilter := "x", Disabled := false }

/-! ## The DAO operations in terms of the driver call they make -/

/-- The results of `CreateImmutableRule` in terms of the driver's `Insert`. -/
theorem CreateImmutableRule_eq {σ : Type} (o : Ormer σ) (s : σ) (r : ImmutableRule) :
    (CreateImmutableRule o s r).val = (o.Insert s { r with Disabled := false }).id ∧
    (CreateImmutableRule o s r).err
      = (o.Insert s { r with Disabled := false }).err.map
          (fun e => if IsDupRecErr e then ConflictError e else Error.raw e) ∧
    (CreateImmutableRule o s r).store = (o.Insert s { r with Disabled := false }).store := by
  unfold CreateImmutableRule
  cases he : (o.Insert s { r with Disabled := false }).err with
  | none => simp [he]
  | some e => by_cases hn : IsDupRecErr e = true <;> simp [he, hn]

/-- The results of `UpdateImmutableRule` in terms of the driver's `Update`. -/
theorem UpdateImmutableRule_eq {σ : Type} (o : Ormer σ) (s : σ) (projectID : Int)
    (ir : ImmutableRule) :
    (UpdateImmutableRule o s projectID ir).val
      = (o.Update s { ir with ProjectID := projectID } [Column.TagFilter]).num ∧
    (UpdateImmutableRule o s projectID ir).err
      = (o.Update s { ir with ProjectID := projectID } [Column.TagFilter]).err.map
          (fun e => if isErrNoRows e then NotFoundError e else Error.raw e) ∧
    (UpdateImmutableRule o s projectID ir).ir = { ir with ProjectID := projectID } ∧
    (UpdateImmutableRule o s projectID ir).store
      = (o.Update s { ir with ProjectID := projectID } [Column.TagFilter]).store := by
  unfold UpdateImmutableRule
  cases he : (o.Update s { ir with ProjectID := projectID } [Column.TagFilter]).err with
  | none => simp [he]
  | some e => by_cases hn : isErrNoRows e = true <;> simp [he, hn]

/-- The results of `ToggleImmutableRule` in terms of the driver's `Update`. -/
theorem ToggleImmutableRule_eq {σ : Type} (o : Ormer σ) (s : σ) (id : Int) (status : Bool) :
    (ToggleImmutableRule o s id status).val
      = (o.Update s { zeroRule with ID := id, Disabled := status } [Column.Disabled]).num ∧
    (ToggleImmutableRule o s id status).err
      = (o.Update s { zeroRule with ID := id, Disabled := status } [Column.Disabled]).err.map
          (fun e => if isErrNoRows e then NotFoundError e else Error.raw e) ∧
    (ToggleImmutableRule o s id status).store
      = (o.Update s { zeroRule with ID := id, Disabled := status } [Column.Disabled]).store := by
  unfold ToggleImmutableRule
  cases he : (o.Update s { zeroRule with ID := id, Disabled := status }
      [Column.Disabled]).err with
  | none => simp [he]
  | some e => by_cases hn : isErrNoRows e = true <;> simp [he, hn]

/-- For every driver, `UpdateImmutableRule` and `ToggleImmutableRule` answer with a
`NotFound` error exactly when the driver's `Update` raised `ErrNoRows`. -/
theorem Update_Toggle_NotFound_iff {σ : Type} (o : Ormer σ) (s : σ) (projectID id : Int)
    (ir : ImmutableRule) (status : Bool) :
    ((∃ e, (UpdateImmutableRule o s projectID ir).err = some e
          ∧ e.Code = some ErrCode.NotFoundCode) ↔
      (o.Update s { ir with ProjectID := projectID } [Column.TagFilter]).err
        = some StoreErr.ErrNoRows) ∧
    ((∃ e, (ToggleImmutableRule o s id status).err = some e
          ∧ e.Code = some ErrCode.NotFoundCode) ↔
      (o.Update s { zeroRule with ID := id, Disabled := status } [Column.Disabled]).err
        = some StoreErr.ErrNoRows) := by
  constructor
  · rw [(UpdateImmutableRule_eq o s projectID ir).2.1]
    cases he : (o.Update s { ir with ProjectID := projectID } [Column.TagFilter]).err with
    | none => simp
    | some e => cases e <;> simp [isErrNoRows, NotFoundError, Error.Code]
  · rw [(ToggleImmutableRule_eq o s id status).2.1]
    cases he : (o.Update s { zeroRule with ID := id, Disabled := status }
        [Column.Disabled]).err with
    | none => simp
    | some e => cases e <;> simp [isErrNoRows, NotFoundError, Error.Code]

/-! ## Facts about the table driver -/

theorem setCols_TagFilter (md r : ImmutableRule) :
    setCols [Column.TagFilter] md r = { r with TagFilter := md.TagFilter } := by
  simp [setCols]

theorem setCols_Disabled (md r : ImmutableRule) :
    setCols [Column.Disabled] md r = { r with Disabled := md.Disabled } := by
  simp [setCols]

/-- A successful insert happened without fault, on a fresh identifier, and
appended the row under that identifier. -/
theorem tableInsert_ok (s : Store) (md : ImmutableRule)
    (h : (tableInsert s md).err = none) :
    s.fault = none ∧ s.rows.any (fun r => r.ID == s.nextID) = false ∧
    tableInsert s md =
      { id := s.nextID, err := none, md := { md with ID := s.nextID },
        store := { s with rows := s.rows ++ [{ md with ID := s.nextID }],
                          nextID := s.nextID + 1 } } := by
  unfold tableInsert at h ⊢
  cases hf : s.fault with
  | some d => simp [hf] at h
  | none =>
    simp only [hf] at h ⊢
    split_ifs at h ⊢ with h1 h2
    all_goals first
      | (simp at h; done)
      | exact ⟨trivial, by simpa using h1, rfl⟩

/-- A successful update rewrote the listed columns of the matching rows and
reported how many rows matched. -/
theorem tableUpdate_ok (s : Store) (md : ImmutableRule) (cols : List Column)
    (h : (tableUpdate s md cols).err = none) :
    tableUpdate s md cols =
      { num := ((s.rows.filter (fun r => r.ID == md.ID)).length : Nat), err := none,
        store := { s with
          rows := List.map (fun r => if r.ID == md.ID then setCols cols md r else r) s.rows } } := by
  unfold tableUpdate at h ⊢
  cases hf : s.fault with
  | some d => simp [hf] at h
  | none =>
    simp only [hf] at h ⊢
    split_ifs at h ⊢ with h1
    all_goals first
      | (simp at h; done)
      | rfl

theorem UpdateImmutableRule_ok (s : Store) (projectID : Int) (ir : ImmutableRule)
    (h : (UpdateImmutableRule tableOrmer s projectID ir).err = none) :
    (tableUpdate s { ir with ProjectID := projectID } [Column.TagFilter]).err = none := by
  rw [(UpdateImmutableRule_eq tableOrmer s projectID ir).2.1] at h
  simpa [tableOrmer] using h

theorem ToggleImmutableRule_ok (s : Store) (id : Int) (status : Bool)
    (h : (ToggleImmutableRule tableOrmer s id status).err = none) :
    (tableUpdate s { zeroRule with ID := id, Disabled := status } [Column.Disabled]).err
      = none := by
  rw [(ToggleImmutableRule_eq tableOrmer s id status).2.1] at h
  simpa [tableOrmer] using h

theorem forall₂_map_self {α : Type} (R : α → α → Prop) (f : α → α)
    (h : ∀ a, R a (f a)) (l : List α) : List.Forall₂ R l (l.map f) := by
  induction l with
  | nil => exact List.Forall₂.nil
  | cons a t ih => exact List.Forall₂.cons (h a) ih

theorem filter_ID_eq_nil (rows : List ImmutableRule) (id : Int)
    (h : ∀ r ∈ rows, r.ID ≠ id) : rows.filter (fun r => r.ID == id) = [] := by
  rw [List.filter_eq_nil_iff]
  intro r hr
  simpa using h r hr

theorem map_update_missing (rows : List ImmutableRule) (id : Int)
    (f : ImmutableRule → ImmutableRule) (h : ∀ r ∈ rows, r.ID ≠ id) :
    rows.map (fun r => if r.ID == id then f r else r) = rows := by
  induction rows with
  | nil => rfl
  | cons a t ih =>
    have ha : a.ID ≠ id := h a (List.mem_cons_self a t)
    have ht : ∀ r ∈ t, r.ID ≠ id := fun r hr => h r (List.mem_cons_of_mem a hr)
    rw [List.map_cons, ih ht]
    simp [ha]

/-- On the table driver an update that matches no row succeeds with `(0, nil)`
and changes nothing. -/
theorem tableUpdate_missing (s : Store) (md : ImmutableRule) (cols : List Column)
    (hf : s.fault = none) (h : ∀ r ∈ s.rows, r.ID ≠ md.ID) :
    tableUpdate s md cols = { num := 0, err := none, store := s } := by
  have hc : updateClashes s md cols = false := by
    unfold updateClashes
    have : s.rows.any (fun m => m.ID == md.ID
        && s.rows.any (fun r => r.ID != md.ID && keyOf r == keyOf (setCols cols md m)))
        = false := by
      rw [List.any_eq_false]
      intro m hm
      simp [h m hm]
    rw [this]
    simp
  unfold tableUpdate
  rw [hf]
  simp only [hc, filter_ID_eq_nil s.rows md.ID h, map_update_missing s.rows md.ID _ h]
  cases s
  simp_all

/-- The table driver's `Update` never raises the no-rows condition. -/
theorem tableUpdate_ne_ErrNoRows (s : Store) (md : ImmutableRule) (cols : List Column) :
    (tableUpdate s md cols).err ≠ some StoreErr.ErrNoRows := by
  unfold tableUpdate
  cases hf : s.fault with
  | some d => simp
  | none =>
    simp only
    split_ifs <;> simp

theorem find?_of_pkUnique (rows : List ImmutableRule) (r : ImmutableRule)
    (hu : (rows.map (fun x => x.ID)).Nodup) (hr : r ∈ rows) :
    rows.find? (fun x => x.ID == r.ID) = some r := by
  induction rows with
  | nil => simp at hr
  | cons a t ih =>
    simp only [List.map_cons, List.nodup_cons] at hu
    rcases List.mem_cons.mp hr with h | h
    · subst h
      simp
    · have hne : a.ID ≠ r.ID := by
        intro heq
        exact hu.1 (heq ▸ List.mem_map_of_mem (fun x => x.ID) h)
      simp [List.find?_cons, hne, ih hu.2 h]

theorem find?_missing (rows : List ImmutableRule) (id : Int)
    (h : ∀ r ∈ rows, r.ID ≠ id) : rows.find? (fun x => x.ID == id) = none := by
  rw [List.find?_eq_none]
  intro x hx
  simpa using h x hx

theorem length_filter_ID_of_pkUnique (rows : List ImmutableRule) (id : Int)
    (hu : (rows.map (fun x => x.ID)).Nodup) (hex : ∃ r ∈ rows, r.ID = id) :
    (rows.filter (fun r => r.ID == id)).length = 1 := by
  induction rows with
  | nil => simp at hex
  | cons a t ih =>
    simp only [List.map_cons, List.nodup_cons] at hu
    by_cases ha : a.ID = id
    · have hmiss : ∀ r ∈ t, r.ID ≠ id := by
        intro r hr heq
        exact hu.1 (by rw [ha, ← heq]; exact List.mem_map_of_mem (fun x => x.ID) hr)
      simp [List.filter_cons, ha, filter_ID_eq_nil t id hmiss]
    · obtain ⟨r, hr, hid⟩ := hex
      rcases List.mem_cons.mp hr with h | h
      · exact absurd (h ▸ hid) ha
      · simp [List.filter_cons, ha, ih hu.2 ⟨r, h, hid⟩]

/-- On the table driver the project query succeeds only when no failure is
injected. -/
theorem Query_ok (s : Store) (projectID : Int)
    (h : (QueryImmutableRuleByProjectID tableOrmer s projectID).2 = none) :
    s.fault = none := by
  cases hf : s.fault with
  | none => rfl
  | some d => simp [QueryImmutableRuleByProjectID, tableOrmer, tableAll, hf] at h

theorem Query_eq (s : Store) (projectID : Int) (hf : s.fault = none) :
    QueryImmutableRuleByProjectID tableOrmer s projectID
      = (s.rows.filter (fun r => r.ProjectID == projectID), none) := by
  simp [QueryImmutableRuleByProjectID, tableOrmer, tableAll, hf, Cond.holds]

theorem QueryEnabled_eq (s : Store) (projectID : Int) (hf : s.fault = none) :
    QueryEnabledImmutableRuleByProjectID tableOrmer s projectID
      = (s.rows.filter (fun r => r.ProjectID == projectID && r.Disabled == false), none) := by
  simp [QueryEnabledImmutableRuleByProjectID, tableOrmer, tableAll, hf, Cond.holds]

/-! ## The primary key stays unique -/

theorem pkUnique_tableInsert (s : Store) (md : ImmutableRule) (h : s.pkUnique) :
    (tableInsert s md).store.pkUnique := by
  unfold tableInsert
  cases hf : s.fault with
  | some d => exact h
  | none =>
    simp only
    split_ifs with h1 h2
    · exact h
    · exact h
    · unfold Store.pkUnique at h ⊢
      have hfresh : s.nextID ∉ s.rows.map (fun r => r.ID) := by
        intro hmem
        obtain ⟨x, hx, hxid⟩ := List.mem_map.mp hmem
        apply h1
        rw [List.any_eq_true]
        exact ⟨x, hx, by simpa using hxid⟩
      simp only [List.map_append, List.map_cons, List.map_nil]
      rw [List.nodup_append]
      refine ⟨h, List.nodup_singleton _, ?_⟩
      intro a ha hb
      rw [List.mem_singleton] at hb
      exact hfresh (hb ▸ ha)

theorem pkUnique_tableUpdate (s : Store) (md : ImmutableRule) (cols : List Column)
    (h : s.pkUnique) : (tableUpdate s md cols).store.pkUnique := by
  unfold tableUpdate
  cases hf : s.fault with
  | some d => exact h
  | none =>
    simp only
    split_ifs with h1
    · exact h
    · unfold Store.pkUnique at h ⊢
      have hmap : (s.rows.map (fun r => if r.ID == md.ID then setCols cols md r else r)).map
          (fun r => r.ID) = s.rows.map (fun r => r.ID) := by
        rw [List.map_map]
        apply List.map_congr_left
        intro a _
        by_cases ha : a.ID = md.ID <;> simp [ha, setCols]
      rw [hmap]
      exact h

theorem pkUnique_tableDelete (s : Store) (md : ImmutableRule) (h : s.pkUnique) :
    (tableDelete s md).store.pkUnique := by
  unfold tableDelete
  cases hf : s.fault with
  | some d => exact h
  | none =>
    unfold Store.pkUnique at h ⊢
    exact List.Nodup.sublist
      (List.Sublist.map (fun r : ImmutableRule => r.ID) (List.filter_sublist s.rows)) h

/-- Every writing operation of the DAO keeps the primary key of the table
unique. -/
theorem pkUnique_preserved (s : Store) (projectID id : Int) (ir : ImmutableRule)
    (status : Bool) (h : s.pkUnique) :
    (CreateImmutableRule tableOrmer s ir).store.pkUnique ∧
    (UpdateImmutableRule tableOrmer s projectID ir).store.pkUnique ∧
    (ToggleImmutableRule tableOrmer s id status).store.pkUnique ∧
    (DeleteImmutableRule tableOrmer s id).store.pkUnique := by
  refine ⟨?_, ?_, ?_, ?_⟩
  · rw [(CreateImmutableRule_eq tableOrmer s ir).2.2]
    exact pkUnique_tableInsert s _ h
  · rw [(UpdateImmutableRule_eq tableOrmer s projectID ir).2.2.2]
    exact pkUnique_tableUpdate s _ _ h
  · rw [(ToggleImmutableRule_eq tableOrmer s id status).2.2]
    exact pkUnique_tableUpdate s _ _ h
  · exact pkUnique_tableDelete s _ h

/-! ## The claims -/

/-- Claim C1: for every store state and every rule `r`, whatever `Disabled` the
caller supplied: when the insert succeeds with new identifier `N`,
`CreateImmutableRule` returns `(N, nil)` and a subsequent `GetImmutableRule(N)`
returns, with nil error, the rule `{N, r.ProjectID, r.TagFilter, false}`. -/
theorem CreateImmutableRule_then_Get (s : Store) (r : ImmutableRule)
    (h : (tableOrmer.Insert s { r with Disabled := false }).err = none) :
    (CreateImmutableRule tableOrmer s r).err = none ∧
    (CreateImmutableRule tableOrmer s r).val
      = (tableOrmer.Insert s { r with Disabled := false }).id ∧
    GetImmutableRule tableOrmer (CreateImmutableRule tableOrmer s r).store
        (CreateImmutableRule tableOrmer s r).val
      = (some { ID := (CreateImmutableRule tableOrmer s r).val, ProjectID := r.ProjectID,
                TagFilter := r.TagFilter, Disabled := false }, none) := by
  have hc : tableOrmer.Insert s { r with Disabled := false }
      = tableInsert s { r with Disabled := false } := rfl
  rw [hc] at h ⊢
  obtain ⟨hf, hfresh, heq⟩ := tableInsert_ok s _ h
  have hnone : s.rows.find? (fun x => x.ID == s.nextID) = none := by
    rw [List.find?_eq_none]
    intro x hx
    have := List.any_eq_false.mp hfresh x hx
    simpa using this
  simp [CreateImmutableRule, hc, heq, GetImmutableRule, tableOrmer, tableRead, hf, zeroRule,
    List.find?_append, hnone]

/-- The example of the spec: creating `{ProjectID: 7, TagFilter: "release-*",
Disabled: true}` in an empty table gives identifier 1, and reading 1 back gives
the rule with `Disabled = false`. -/
theorem CreateImmutableRule_then_Get_witness :
    (tableOrmer.Insert emptyStore { releaseRule with Disabled := false }).err = none ∧
    (CreateImmutableRule tableOrmer emptyStore releaseRule).val = 1 ∧
    GetImmutableRule tableOrmer (CreateImmutableRule tableOrmer emptyStore releaseRule).store 1
      = (some { ID := 1, ProjectID := 7, TagFilter := "release-*", Disabled := false }, none) :=
  ⟨by decide, by decide,
   (CreateImmutableRule_then_Get emptyStore releaseRule (by decide)).2.2⟩

/-- Claim C2: for every driver, every rule and every outcome of the insert:
`CreateImmutableRule` returns the `Conflict` error wrapping the store error when
the insert fails with the duplicate-record condition, the store error itself
when it fails otherwise, and nil when it succeeds; so the returned error is a
`Conflict` exactly when the insert failed with the duplicate-record condition. -/
theorem CreateImmutableRule_error_mapping {σ : Type} (o : Ormer σ) (s : σ)
    (r : ImmutableRule) :
    (∀ e, (o.Insert s { r with Disabled := false }).err = some e → IsDupRecErr e = true →
        (CreateImmutableRule o s r).err = some (ConflictError e)
        ∧ (ConflictError e).Code = some ErrCode.ConflictCode
        ∧ (ConflictError e).Cause = e) ∧
    (∀ e, (o.Insert s { r with Disabled := false }).err = some e → IsDupRecErr e = false →
        (CreateImmutableRule o s r).err = some (Error.raw e)) ∧
    ((o.Insert s { r with Disabled := false }).err = none →
        (CreateImmutableRule o s r).err = none) ∧
    ((∃ e, (CreateImmutableRule o s r).err = some e ∧ e.Code = some ErrCode.ConflictCode) ↔
        ∃ e, (o.Insert s { r with Disabled := false }).err = some e ∧ IsDupRecErr e = true) := by
  have hE := (CreateImmutableRule_eq o s r).2.1
  refine ⟨?_, ?_, ?_, ?_⟩
  · intro e he hd
    rw [hE, he]
    simp [hd, ConflictError, Error.Code, Error.Cause]
  · intro e he hd
    rw [hE, he]
    simp [hd]
  · intro he
    rw [hE, he]
    rfl
  · rw [hE]
    cases he : (o.Insert s { r with Disabled := false }).err with
    | none => simp
    | some e =>
      by_cases hd : IsDupRecErr e = true
      · simp [hd, ConflictError, Error.Code]
      · simp [hd, Error.Code]

/-- On the table driver with the unique index: creating the same rule twice gives
a `Conflict` from the second call; a lost connection is handed on unchanged; a
first creation returns nil. -/
theorem CreateImmutableRule_error_mapping_witness :
    (CreateImmutableRule tableOrmer
        (CreateImmutableRule tableOrmer emptyStore releaseRule).store releaseRule).err
      = some (ConflictError (StoreErr.dupRec "project, filter"))
    ∧ (CreateImmutableRule tableOrmer downStore releaseRule).err
      = some (Error.raw (StoreErr.other "connection refused"))
    ∧ (CreateImmutableRule tableOrmer emptyStore releaseRule).err = none :=
  ⟨((CreateImmutableRule_error_mapping tableOrmer
        (CreateImmutableRule tableOrmer emptyStore releaseRule).store releaseRule).1
        (StoreErr.dupRec "project, filter") (by decide) (by decide)).1,
   (CreateImmutableRule_error_mapping tableOrmer downStore releaseRule).2.1
        (StoreErr.other "connection refused") (by decide) (by decide),
   (CreateImmutableRule_error_mapping tableOrmer emptyStore releaseRule).2.2.1 (by decide)⟩

/-- Claim C3: for every store state, every `projectID` and every rule, a
successful `UpdateImmutableRule(projectID, rule)` changes only the `TagFilter`
of the rows whose `ID` is `rule.ID` (to `rule.TagFilter`): every row keeps its
`ID`, `ProjectID` and `Disabled` (whatever `projectID` and `rule.Disabled` are),
every other row is unchanged, and nothing else of the store changes. -/
theorem UpdateImmutableRule_changes_only_TagFilter (s : Store) (projectID : Int)
    (ir : ImmutableRule)
    (h : (UpdateImmutableRule tableOrmer s projectID ir).err = none) :
    (UpdateImmutableRule tableOrmer s projectID ir).store
      = { s with
          rows := List.map
            (fun r => if r.ID = ir.ID then { r with TagFilter := ir.TagFilter } else r) s.rows } ∧
    List.Forall₂
      (fun old new => new.ID = old.ID ∧ new.ProjectID = old.ProjectID
        ∧ new.Disabled = old.Disabled
        ∧ new.TagFilter = if old.ID = ir.ID then ir.TagFilter else old.TagFilter)
      s.rows (UpdateImmutableRule tableOrmer s projectID ir).store.rows := by
  have hu := tableUpdate_ok s _ _ (UpdateImmutableRule_ok s projectID ir h)
  have hs : (UpdateImmutableRule tableOrmer s projectID ir).store
      = { s with
          rows := List.map
            (fun r => if r.ID = ir.ID then { r with TagFilter := ir.TagFilter } else r) s.rows } := by
    simp [UpdateImmutableRule, tableOrmer, hu, setCols_TagFilter]
  refine ⟨hs, ?_⟩
  rw [hs]
  apply forall₂_map_self
  intro a
  by_cases ha : a.ID = ir.ID <;> simp [ha]

/-- Updating row 5 of the sample table with `projectID = 99` and a rule that says
`ProjectID = 1`, `Disabled = true`: only the filter of row 5 changes. -/
theorem UpdateImmutableRule_changes_only_TagFilter_witness :
    (UpdateImmutableRule tableOrmer sampleStore 99 editRule).err = none ∧
    (UpdateImmutableRule tableOrmer sampleStore 99 editRule).store
      = { sampleStore with
          rows := List.map
            (fun r => if r.ID = editRule.ID then { r with TagFilter := editRule.TagFilter }
              else r) sampleStore.rows } ∧
    (UpdateImmutableRule tableOrmer sampleStore 99 editRule).store.rows
      = [ { ID := 5, ProjectID := 7, TagFilter := "v*", Disabled := false },
          { ID := 6, ProjectID := 7, TagFilter := "b", Disabled := true },
          { ID := 8, ProjectID := 3, TagFilter := "c", Disabled := false } ] :=
  ⟨by decide,
   (UpdateImmutableRule_changes_only_TagFilter sampleStore 99 editRule (by decide)).1,
   by decide⟩

/-- Claim C4: for every store state, every `id` and every `status`, a successful
`ToggleImmutableRule(id, status)` sets `Disabled` of the rows whose `ID` is `id`
to `status` and changes nothing else: every row keeps its `ID`, `ProjectID` and
`TagFilter` (the zero values of the freshly built rule are not written), and
every other row is unchanged. -/
theorem ToggleImmutableRule_changes_only_Disabled (s : Store) (id : Int) (status : Bool)
    (h : (ToggleImmutableRule tableOrmer s id status).err = none) :
    (ToggleImmutableRule tableOrmer s id status).store
      = { s with
          rows := List.map
            (fun r => if r.ID = id then { r with Disabled := status } else r) s.rows } ∧
    List.Forall₂
      (fun old new => new.ID = old.ID ∧ new.ProjectID = old.ProjectID
        ∧ new.TagFilter = old.TagFilter
        ∧ new.Disabled = if old.ID = id then status else old.Disabled)
      s.rows (ToggleImmutableRule tableOrmer s id status).store.rows := by
  have hu := tableUpdate_ok s _ _ (ToggleImmutableRule_ok s id status h)
  have hs : (ToggleImmutableRule tableOrmer s id status).store
      = { s with
          rows := List.map
            (fun r => if r.ID = id then { r with Disabled := status } else r) s.rows } := by
    simp [ToggleImmutableRule, tableOrmer, hu, setCols_Disabled]
  refine ⟨hs, ?_⟩
  rw [hs]
  apply forall₂_map_self
  intro a
  by_cases ha : a.ID = id <;> simp [ha]

/-- Disabling row 5 of the sample table: project 7 and filter "a" stay. -/
theorem ToggleImmutableRule_changes_only_Disabled_witness :
    (ToggleImmutableRule tableOrmer sampleStore 5 true).err = none ∧
    (ToggleImmutableRule tableOrmer sampleStore 5 true).store
      = { sampleStore with
          rows := List.map
            (fun r => if r.ID = 5 then { r with Disabled := true } else r) sampleStore.rows } ∧
    (ToggleImmutableRule tableOrmer sampleStore 5 true).store.rows
      = [ { ID := 5, ProjectID := 7, TagFilter := "a", Disabled := true },
          { ID := 6, ProjectID := 7, TagFilter := "b", Disabled := true },
          { ID := 8, ProjectID := 3, TagFilter := "c", Disabled := false } ] :=
  ⟨by decide,
   (ToggleImmutableRule_changes_only_Disabled sampleStore 5 true (by decide)).1,
   by decide⟩

/-- Claim C5 (what the code does where the claim asks for `NotFound`): on the
table driver, for every store state without injected failure in which no row
has the targeted identifier, `UpdateImmutableRule` and `ToggleImmutableRule`
return `(0, nil)` and leave the store unchanged: the driver's `Update` reports
zero rows affected and no error, so the `ErrNoRows` branch is never taken. -/
theorem Update_Toggle_missing_row_no_error (s : Store) (projectID id : Int)
    (ir : ImmutableRule) (status : Bool) (hf : s.fault = none)
    (hir : ∀ r ∈ s.rows, r.ID ≠ ir.ID) (hid : ∀ r ∈ s.rows, r.ID ≠ id) :
    (UpdateImmutableRule tableOrmer s projectID ir).val = 0 ∧
    (UpdateImmutableRule tableOrmer s projectID ir).err = none ∧
    (UpdateImmutableRule tableOrmer s projectID ir).store = s ∧
    (ToggleImmutableRule tableOrmer s id status).val = 0 ∧
    (ToggleImmutableRule tableOrmer s id status).err = none ∧
    (ToggleImmutableRule tableOrmer s id status).store = s := by
  have hu := tableUpdate_missing s { ir with ProjectID := projectID } [Column.TagFilter] hf hir
  have ht := tableUpdate_missing s { zeroRule with ID := id, Disabled := status }
    [Column.Disabled] hf hid
  obtain ⟨u1, u2, _, u4⟩ := UpdateImmutableRule_eq tableOrmer s projectID ir
  obtain ⟨t1, t2, t3⟩ := ToggleImmutableRule_eq tableOrmer s id status
  have hU : tableOrmer.Update = tableUpdate := rfl
  rw [hU] at u1 u2 u4 t1 t2 t3
  rw [hu] at u1 u2 u4
  rw [ht] at t1 t2 t3
  exact ⟨u1, u2, u4, t1, t2, t3⟩

/-- Identifier 42 is in no row of the sample table: updating and toggling it
both return `(0, nil)`. -/
theorem Update_Toggle_missing_row_no_error_witness :
    sampleStore.fault = none ∧
    (∀ r ∈ sampleStore.rows, r.ID ≠ strayRule.ID) ∧
    (UpdateImmutableRule tableOrmer sampleStore 7 strayRule).val = 0 ∧
    (UpdateImmutableRule tableOrmer sampleStore 7 strayRule).err = none ∧
    (UpdateImmutableRule tableOrmer sampleStore 7 strayRule).store = sampleStore ∧
    (ToggleImmutableRule tableOrmer sampleStore 42 true).val = 0 ∧
    (ToggleImmutableRule tableOrmer sampleStore 42 true).err = none ∧
    (ToggleImmutableRule tableOrmer sampleStore 42 true).store = sampleStore :=
  ⟨rfl, by decide,
   Update_Toggle_missing_row_no_error sampleStore 7 42 strayRule true rfl
    (by decide) (by decide)⟩

/-- Claim C6: for every store state and every `id`: if a row with that `ID` is
stored (the primary key being unique), `GetImmutableRule(id)` returns exactly
that row with nil error; if none is stored it returns no rule and the
`NotFound`-coded error whose message is "the immutable rule <id> is not found.",
which contains the decimal rendering of `id`; and, for every driver, any other
read failure is returned unchanged with no rule. -/
theorem GetImmutableRule_spec (s : Store) (id : Int) :
    (∀ r, s.fault = none → s.pkUnique → r ∈ s.rows → r.ID = id →
        GetImmutableRule tableOrmer s id = (some r, none)) ∧
    (s.fault = none → (∀ r ∈ s.rows, r.ID ≠ id) →
        GetImmutableRule tableOrmer s id
          = (none, some (Error.coded ErrCode.NotFoundCode
              (some ("the immutable rule " ++ toString id ++ " is not found."))
              StoreErr.ErrNoRows))) ∧
    (∃ before after, notFoundMessage id = before ++ toString id ++ after) ∧
    (∀ (σ : Type) (o : Ormer σ) (t : σ) (e : StoreErr),
        (o.Read t { zeroRule with ID := id }).err = some e → e ≠ StoreErr.ErrNoRows →
        GetImmutableRule o t id = (none, some (Error.raw e))) := by
  refine ⟨?_, ?_, ⟨"the immutable rule ", " is not found.", rfl⟩, ?_⟩
  · intro r hf hu hr hid
    subst hid
    have := find?_of_pkUnique s.rows r hu hr
    simp [GetImmutableRule, tableOrmer, tableRead, hf, zeroRule, this]
  · intro hf hmiss
    have := find?_missing s.rows id hmiss
    simp [GetImmutableRule, tableOrmer, tableRead, hf, zeroRule, this, isErrNoRows,
      NewWithCodeMessage, notFoundMessage]
  · intro σ o t e he hne
    have hn : isErrNoRows e = false := by
      cases e <;> simp [isErrNoRows] at hne ⊢
    simp [GetImmutableRule, he, hn]

/-- Reading row 6, the missing row 42, and row 6 over a lost connection. -/
theorem GetImmutableRule_spec_witness :
    GetImmutableRule tableOrmer sampleStore 6
      = (some { ID := 6, ProjectID := 7, TagFilter := "b", Disabled := true }, none) ∧
    GetImmutableRule tableOrmer sampleStore 42
      = (none, some (Error.coded ErrCode.NotFoundCode
          (some "the immutable rule 42 is not found.") StoreErr.ErrNoRows)) ∧
    GetImmutableRule tableOrmer downStore 6
      = (none, some (Error.raw (StoreErr.other "connection refused"))) :=
  ⟨(GetImmutableRule_spec sampleStore 6).1 _ rfl (by decide) (by decide) rfl,
   (GetImmutableRule_spec sampleStore 42).2.1 rfl (by decide),
   (GetImmutableRule_spec downStore 6).2.2.2 Store tableOrmer downStore
      (StoreErr.other "connection refused") (by decide) (by decide)⟩

/-- Claim C7: for every store state and every `projectID` for which the query
succeeds, `QueryEnabledImmutableRuleByProjectID` succeeds as well and returns
exactly the rules of `QueryImmutableRuleByProjectID` with `Disabled = false`, in
the same order: it holds no disabled rule and no rule of another project, it
holds every enabled rule of the project, and both queries return the empty
sequence with nil error when the project has no (enabled) rule. -/
theorem QueryEnabled_is_filter_of_Query (s : Store) (projectID : Int)
    (hq : (QueryImmutableRuleByProjectID tableOrmer s projectID).2 = none) :
    (QueryEnabledImmutableRuleByProjectID tableOrmer s projectID).2 = none ∧
    (QueryEnabledImmutableRuleByProjectID tableOrmer s projectID).1
      = (QueryImmutableRuleByProjectID tableOrmer s projectID).1.filter
          (fun r => r.Disabled == false) ∧
    (QueryImmutableRuleByProjectID tableOrmer s projectID).1
      = s.rows.filter (fun r => r.ProjectID == projectID) ∧
    (∀ r ∈ (QueryEnabledImmutableRuleByProjectID tableOrmer s projectID).1,
        r.Disabled = false ∧ r.ProjectID = projectID ∧ r ∈ s.rows) ∧
    (∀ r ∈ s.rows, r.ProjectID = projectID → r.Disabled = false →
        r ∈ (QueryEnabledImmutableRuleByProjectID tableOrmer s projectID).1) ∧
    ((∀ r ∈ s.rows, r.ProjectID ≠ projectID) →
        QueryImmutableRuleByProjectID tableOrmer s projectID = ([], none)) ∧
    ((∀ r ∈ s.rows, r.ProjectID = projectID → r.Disabled = true) →
        QueryEnabledImmutableRuleByProjectID tableOrmer s projectID = ([], none)) := by
  have hf := Query_ok s projectID hq
  rw [Query_eq s projectID hf, QueryEnabled_eq s projectID hf]
  refine ⟨rfl, ?_, rfl, ?_, ?_, ?_, ?_⟩
  · simp [List.filter_filter, Bool.and_comm]
  · intro r hr
    simp only [List.mem_filter] at hr
    simp at hr
    exact ⟨hr.2.2, hr.2.1, hr.1⟩
  · intro r hr hp hd
    simp [List.mem_filter, hr, hp, hd]
  · intro h
    simp only [Prod.mk.injEq, and_true]
    rw [List.filter_eq_nil_iff]
    intro r hr
    simpa using h r hr
  · intro h
    simp only [Prod.mk.injEq, and_true]
    rw [List.filter_eq_nil_iff]
    intro r hr
    have := h r hr
    by_cases hp : r.ProjectID = projectID
    · simp [hp, this hp]
    · simp [hp]

/-- Project 7 of the sample table has rules 5 (enabled) and 6 (disabled). -/
theorem QueryEnabled_is_filter_of_Query_witness :
    (QueryImmutableRuleByProjectID tableOrmer sampleStore 7).2 = none ∧
    (QueryImmutableRuleByProjectID tableOrmer sampleStore 7).1
      = [ { ID := 5, ProjectID := 7, TagFilter := "a", Disabled := false },
          { ID := 6, ProjectID := 7, TagFilter := "b", Disabled := true } ] ∧
    (QueryEnabledImmutableRuleByProjectID tableOrmer sampleStore 7).1
      = (QueryImmutableRuleByProjectID tableOrmer sampleStore 7).1.filter
          (fun r => r.Disabled == false) ∧
    (QueryEnabledImmutableRuleByProjectID tableOrmer sampleStore 7).1
      = [ { ID := 5, ProjectID := 7, TagFilter := "a", Disabled := false } ] :=
  ⟨by decide, by decide,
   (QueryEnabled_is_filter_of_Query sampleStore 7 (by decide)).2.1,
   by decide⟩

/-- Claim C8: for every `id`, `DeleteImmutableRule(id)` returns the pair of the
driver's `Delete` as it is (the error unwrapped), for every driver; on the table
it removes exactly the rows whose `ID` is `id`, keeps every other row, and
returns how many it removed; for an `id` matching no row it returns `(0, nil)`
(not `NotFound`) and leaves the store unchanged; a store failure is returned
unwrapped. -/
theorem DeleteImmutableRule_spec (s : Store) (id : Int) :
    (∀ (σ : Type) (o : Ormer σ) (t : σ),
        (DeleteImmutableRule o t id).val = (o.Delete t { zeroRule with ID := id }).num ∧
        (DeleteImmutableRule o t id).err
          = (o.Delete t { zeroRule with ID := id }).err.map Error.raw ∧
        (DeleteImmutableRule o t id).store = (o.Delete t { zeroRule with ID := id }).store) ∧
    (s.fault = none →
        (DeleteImmutableRule tableOrmer s id).store
          = { s with rows := List.filter (fun r => r.ID != id) s.rows } ∧
        (DeleteImmutableRule tableOrmer s id).val
          = ((s.rows.filter (fun r => r.ID == id)).length : Nat) ∧
        (DeleteImmutableRule tableOrmer s id).err = none ∧
        (∀ r, r ∈ (DeleteImmutableRule tableOrmer s id).store.rows ↔ r ∈ s.rows ∧ r.ID ≠ id)) ∧
    (s.fault = none → (∀ r ∈ s.rows, r.ID ≠ id) →
        (DeleteImmutableRule tableOrmer s id).val = 0 ∧
        (DeleteImmutableRule tableOrmer s id).err = none ∧
        (DeleteImmutableRule tableOrmer s id).store = s) ∧
    (∀ d, s.fault = some d →
        (DeleteImmutableRule tableOrmer s id).val = 0 ∧
        (DeleteImmutableRule tableOrmer s id).err = some (Error.raw (StoreErr.other d)) ∧
        (DeleteImmutableRule tableOrmer s id).store = s) := by
  refine ⟨fun σ o t => ⟨rfl, rfl, rfl⟩, ?_, ?_, ?_⟩
  · intro hf
    refine ⟨?_, ?_, ?_, ?_⟩
    · simp [DeleteImmutableRule, tableOrmer, tableDelete, hf, zeroRule]
    · simp [DeleteImmutableRule, tableOrmer, tableDelete, hf, zeroRule]
    · simp [DeleteImmutableRule, tableOrmer, tableDelete, hf]
    · intro r
      simp [DeleteImmutableRule, tableOrmer, tableDelete, hf, zeroRule, List.mem_filter]
  · intro hf hmiss
    have h1 : s.rows.filter (fun r => r.ID == id) = [] := filter_ID_eq_nil s.rows id hmiss
    have h2 : s.rows.filter (fun r => r.ID != id) = s.rows := by
      rw [List.filter_eq_self]
      intro r hr
      simpa using hmiss r hr
    refine ⟨?_, ?_, ?_⟩
    · simp [DeleteImmutableRule, tableOrmer, tableDelete, hf, zeroRule, h1]
    · simp [DeleteImmutableRule, tableOrmer, tableDelete, hf]
    · simp only [DeleteImmutableRule, tableOrmer, tableDelete, hf, zeroRule, h2]
      cases s
      simp_all
  · intro d hf
    simp [DeleteImmutableRule, tableOrmer, tableDelete, hf]

/-- Deleting row 6 of the sample table removes one row; deleting the missing
row 42 returns `(0, nil)` and changes nothing. -/
theorem DeleteImmutableRule_spec_witness :
    (DeleteImmutableRule tableOrmer sampleStore 6).store.rows
      = [ { ID := 5, ProjectID := 7, TagFilter := "a", Disabled := false },
          { ID := 8, ProjectID := 3, TagFilter := "c", Disabled := false } ] ∧
    (DeleteImmutableRule tableOrmer sampleStore 6).val = 1 ∧
    (DeleteImmutableRule tableOrmer sampleStore 42).val = 0 ∧
    (DeleteImmutableRule tableOrmer sampleStore 42).err = none ∧
    (DeleteImmutableRule tableOrmer sampleStore 42).store = sampleStore :=
  ⟨by decide, by decide,
   (DeleteImmutableRule_spec sampleStore 42).2.2.1 rfl (by decide)⟩

/-- Claim C9: for every driver, every `projectID` and every rule, the rule
`UpdateImmutableRule(projectID, rule)` hands to the driver's `Update`, and the
caller's rule after the call, is the supplied rule with `ProjectID = projectID`
(`ID`, `TagFilter` and `Disabled` as supplied), whatever the driver answers: the
recording driver logs exactly that rule with the column list `TagFilter`. -/
theorem UpdateImmutableRule_binds_ProjectID {σ : Type} (o : Ormer σ) (s : σ)
    (projectID : Int) (ir : ImmutableRule) (res : Int × Option StoreErr)
    (log : List (ImmutableRule × List Column)) :
    (UpdateImmutableRule o s projectID ir).ir
      = { ID := ir.ID, ProjectID := projectID, TagFilter := ir.TagFilter,
          Disabled := ir.Disabled } ∧
    (UpdateImmutableRule o s projectID ir).store
      = (o.Update s { ID := ir.ID, ProjectID := projectID, TagFilter := ir.TagFilter,
                      Disabled := ir.Disabled } [Column.TagFilter]).store ∧
    (UpdateImmutableRule o s projectID ir).val
      = (o.Update s { ID := ir.ID, ProjectID := projectID, TagFilter := ir.TagFilter,
                      Disabled := ir.Disabled } [Column.TagFilter]).num ∧
    (UpdateImmutableRule (spyOrmer res) log projectID ir).store
      = ({ ID := ir.ID, ProjectID := projectID, TagFilter := ir.TagFilter,
           Disabled := ir.Disabled }, [Column.TagFilter]) :: log := by
  obtain ⟨h1, _, h3, h4⟩ := UpdateImmutableRule_eq o s projectID ir
  refine ⟨h3, h4, h1, ?_⟩
  rw [(UpdateImmutableRule_eq (spyOrmer res) log projectID ir).2.2.2]
  rfl

/-- With a failing driver and a rule that says `ProjectID = 1`, the driver is
handed, and the caller is left with, `ProjectID = 99`. -/
theorem UpdateImmutableRule_binds_ProjectID_witness :
    (UpdateImmutableRule (spyOrmer (0, some (StoreErr.other "down"))) [] 99 editRule).store
      = [({ ID := 5, ProjectID := 99, TagFilter := "v*", Disabled := true },
          [Column.TagFilter])] ∧
    (UpdateImmutableRule (spyOrmer (0, some (StoreErr.other "down"))) [] 99 editRule).ir
      = { ID := 5, ProjectID := 99, TagFilter := "v*", Disabled := true } :=
  ⟨(UpdateImmutableRule_binds_ProjectID (spyOrmer (0, some (StoreErr.other "down"))) []
      99 editRule (0, some (StoreErr.other "down")) []).2.2.2,
   (UpdateImmutableRule_binds_ProjectID (spyOrmer (0, some (StoreErr.other "down"))) []
      99 editRule (0, some (StoreErr.other "down")) []).1⟩

/-- Claim C10 (what the code does where the claim asks for the identifier): on
the table driver, for every store state with a unique primary key in which the
targeted row exists and the store update succeeds, `ToggleImmutableRule(id,
status)` and `UpdateImmutableRule(projectID, rule)` return 1 as first result:
the number of rows the driver's `Update` affected, which both functions hand on
under the name `id`.  The first result is therefore the targeted identifier
only when that identifier happens to be 1. -/
theorem Toggle_Update_first_result_is_row_count (s : Store) (projectID id : Int)
    (ir : ImmutableRule) (status : Bool) (hu : s.pkUnique)
    (hid : ∃ r ∈ s.rows, r.ID = id) (hir : ∃ r ∈ s.rows, r.ID = ir.ID)
    (ht : (ToggleImmutableRule tableOrmer s id status).err = none)
    (hup : (UpdateImmutableRule tableOrmer s projectID ir).err = none) :
    (ToggleImmutableRule tableOrmer s id status).val = 1 ∧
    (UpdateImmutableRule tableOrmer s projectID ir).val = 1 ∧
    (id ≠ 1 → (ToggleImmutableRule tableOrmer s id status).val ≠ id) ∧
    (ir.ID ≠ 1 → (UpdateImmutableRule tableOrmer s projectID ir).val ≠ ir.ID) := by
  have hT : (ToggleImmutableRule tableOrmer s id status).val = 1 := by
    have hok := tableUpdate_ok s _ _ (ToggleImmutableRule_ok s id status ht)
    rw [(ToggleImmutableRule_eq tableOrmer s id status).1]
    show (tableUpdate s _ _).num = _
    rw [hok]
    show ((s.rows.filter (fun r => r.ID == id)).length : Int) = 1
    rw [length_filter_ID_of_pkUnique s.rows id hu hid]
    rfl
  have hU : (UpdateImmutableRule tableOrmer s projectID ir).val = 1 := by
    have hok := tableUpdate_ok s _ _ (UpdateImmutableRule_ok s projectID ir hup)
    rw [(UpdateImmutableRule_eq tableOrmer s projectID ir).1]
    show (tableUpdate s _ _).num = _
    rw [hok]
    show ((s.rows.filter (fun r => r.ID == ir.ID)).length : Int) = 1
    rw [length_filter_ID_of_pkUnique s.rows ir.ID hu hir]
    rfl
  refine ⟨hT, hU, ?_, ?_⟩
  · intro hne
    rw [hT]
    exact fun h => hne h.symm
  · intro hne
    rw [hU]
    exact fun h => hne h.symm

/-- Row 5 exists in the sample table, whose primary key is unique, and both
calls succeed; `ToggleImmutableRule(5, true)` and `UpdateImmutableRule(99, rule
5)` return 1, not the identifier 5. -/
theorem Toggle_Update_first_result_is_row_count_witness :
    sampleStore.pkUnique ∧
    (∃ r ∈ sampleStore.rows, r.ID = 5) ∧
    (ToggleImmutableRule tableOrmer sampleStore 5 true).err = none ∧
    (UpdateImmutableRule tableOrmer sampleStore 99 editRule).err = none ∧
    (ToggleImmutableRule tableOrmer sampleStore 5 true).val = 1 ∧
    (UpdateImmutableRule tableOrmer sampleStore 99 editRule).val = 1 ∧
    (ToggleImmutableRule tableOrmer sampleStore 5 true).val ≠ 5 ∧
    (UpdateImmutableRule tableOrmer sampleStore 99 editRule).val ≠ 5 :=
  have h := Toggle_Update_first_result_is_row_count sampleStore 99 5 editRule true
    (by decide) ⟨_, List.mem_cons_self _ _, rfl⟩ ⟨_, List.mem_cons_self _ _, rfl⟩
    (by decide) (by decide)
  ⟨by decide, ⟨_, List.mem_cons_self _ _, rfl⟩, by decide, by decide,
   h.1, h.2.1, h.2.2.1 (by decide), h.2.2.2 (by decide)⟩

end Harbor.ImmutableTag
